import Mathlib

/-!
Shallow embedding of the aufloes DNS forwarding proxy (Rust) in Lean 4.

Byte strings (`BytesMut`, `Vec<u8>`, `&[u8]`) are modelled as `List Nat`
whose elements are intended to be below 256; wherever the Rust code writes
a `u8` we reduce modulo 256 explicitly.  A Rust panic (out-of-bounds slice,
failed assertion) is modelled as `Option.none` in the embedded function's
result.  The pending table `HashMap<u16, oneshot::Sender<..>>` is modelled
as an association list from transaction IDs to abstract handle identifiers.
Nondeterministic external events (socket errors, datagram arrival, HTTP
responses, timeouts, random number generation) are passed in as explicit
parameters, so every embedded operation is a pure function of its inputs.
-/

namespace Aufloes

/-- Embeds `proto::txid_from_binary_message` (src/proto/mod.rs): copies bytes
0..2 of the message and decodes them as a big-endian 16-bit integer.  The
`copy_from_slice` of `&message[0..2]` panics when the message is shorter than
2 bytes, which the embedding renders as `none`. -/
def txid_from_binary_message (message : List Nat) : Option Nat :=
  match message with
  | b0 :: b1 :: _ => some (b0 * 256 + b1)
  | _ => none

/-- Embeds `u16::to_be_bytes`: the two big-endian bytes of a 16-bit value. -/
def u16_to_be_bytes (t : Nat) : List Nat :=
  [t / 256 % 256, t % 256]

/-- Embeds `data[0..2].copy_from_slice(&txid.to_be_bytes())`: overwrite bytes
0..2 of the buffer in place with the big-endian encoding of `t`.  Slicing
`data[0..2]` panics (`none`) when the buffer is shorter than 2 bytes. -/
def write_txid (data : List Nat) (t : Nat) : Option (List Nat) :=
  match data with
  | _ :: _ :: rest => some (t / 256 % 256 :: t % 256 :: rest)
  | _ => none

/-- Embeds `BytesMut::zeroed(n)` followed by `socket.recv` into it and
`buffer.split_to(n)`: a UDP receive into a fixed-size buffer yields the first
`min (length) bufSize` bytes of the datagram, the excess being discarded. -/
def recv_into_buffer (bufSize : Nat) (dgram : List Nat) : List Nat :=
  let n := min dgram.length bufSize
  (dgram.take n ++ List.replicate (bufSize - n) 0).take n

/-! ## The pending-request table

`HashMap<u16, oneshot::Sender<Result<BytesMut>>>` of `UdpClientInner`,
modelled as an association list from transaction IDs to handle identifiers
(`Nat` standing for the oneshot sender). -/

abbrev PendingMap := List (Nat × Nat)

/-- Embeds `HashMap::contains_key`. -/
def map_contains (m : PendingMap) (k : Nat) : Bool :=
  m.any (fun p => p.1 == k)

/-- Embeds `HashMap::get` (lookup of the value stored under a key). -/
def map_lookup (m : PendingMap) (k : Nat) : Option Nat :=
  (m.find? (fun p => p.1 == k)).map (fun p => p.2)

/-- Removes every binding of key `k`; with unique keys this is the map after
`HashMap::remove(&k)`. -/
def map_erase (m : PendingMap) (k : Nat) : PendingMap :=
  m.filter (fun p => p.1 != k)

/-- Embeds `HashMap::insert(k, v)`: returns the previously stored value and
the updated map. -/
def map_insert (m : PendingMap) (k v : Nat) : Option Nat × PendingMap :=
  (map_lookup m k, (k, v) :: map_erase m k)

/-- Embeds `HashMap::remove(&k)`: returns the removed value, if any, and the
updated map. -/
def map_remove (m : PendingMap) (k : Nat) : Option Nat × PendingMap :=
  (map_lookup m k, map_erase m k)

/-! ## UdpClient::new_pending_request (src/client/udp/udp_client.rs)

The RNG is modelled as the list of successive samples `rng.gen::<u16>()`
would produce (each reduced modulo 2^16); the loop re-rolls while the sample
collides with a pending ID.  Running out of samples models a diverging loop.
The fresh oneshot channel is modelled by the caller-supplied handle id. -/

inductive NprResult where
  | outOfSamples : NprResult
  | assertFail : NprResult
  | ok (txid : Nat) (pending : PendingMap) : NprResult
deriving DecidableEq, Repr

/-- Embeds `UdpClient::new_pending_request`: sample a 16-bit transaction ID,
re-sampling while it collides with a pending one; insert the completion
handle under the chosen ID and assert that no previous value was displaced
(`assert!(prev_value.is_none(), "TXID collision")`, rendered as
`assertFail`). -/
def new_pending_request (pending : PendingMap) (handle : Nat) :
    List Nat → NprResult
  | [] => .outOfSamples
  | s :: rest =>
    let txid := s % 65536
    if map_contains pending txid then
      new_pending_request pending handle rest
    else
      match map_insert pending txid handle with
      | (some _, _) => .assertFail
      | (none, p1) => .ok txid p1

/-! ## UdpClient::receive_task (src/client/udp/udp_client.rs) -/

/-- What one iteration of the receive loop did with a received datagram. -/
inductive RecvAction where
  | discard : RecvAction
  | deliver (txid : Nat) (handle : Nat) (payload : List Nat) : RecvAction
deriving DecidableEq, Repr

/-- Embeds the body of one iteration of `UdpClient::receive_task` for a
successfully received datagram: read into the 1024-byte buffer, extract the
transaction ID (`none` models the panic on datagrams shorter than 2 bytes),
remove the matching pending entry, and either discard (no entry) or deliver
the payload to the removed completion handle.  `deliverOk` models whether
`sender.send` succeeds; the loop ignores it (`let _ = sender.send(..)`). -/
def receive_task_step (pending : PendingMap) (dgram : List Nat)
    (_deliverOk : Bool) : Option (PendingMap × RecvAction) :=
  let data := recv_into_buffer 1024 dgram
  match txid_from_binary_message data with
  | none => none
  | some txid =>
    match map_remove pending txid with
    | (none, _) => some (pending, .discard)
    | (some sender, p1) => some (p1, .deliver txid sender data)

/-- One external event observed by the receive loop's `select!`. -/
inductive SockEvent where
  | shutdown : SockEvent
  | recvErr : SockEvent
  | recvOk (dgram : List Nat) (deliverOk : Bool) : SockEvent
deriving DecidableEq, Repr

/-- Embeds `UdpClient::receive_task` run over a finite schedule of socket
events: shutdown breaks the loop, a receive error is logged and skipped,
and each received datagram is handled by `receive_task_step`.  `none`
models the task dying of a panic; otherwise the final pending table and the
actions taken, in order, are returned. -/
def receive_task_run (pending : PendingMap) :
    List SockEvent → Option (PendingMap × List RecvAction)
  | [] => some (pending, [])
  | .shutdown :: _ => some (pending, [])
  | .recvErr :: rest => receive_task_run pending rest
  | .recvOk dgram deliverOk :: rest =>
    match receive_task_step pending dgram deliverOk with
    | none => none
    | some (p1, act) =>
      match receive_task_run p1 rest with
      | none => none
      | some (pf, acts) => some (pf, act :: acts)

/-! ## UdpClient::resolve_raw (src/client/udp/udp_client.rs)

The call is modelled jointly with the concurrent receive loop as far as this
call's own pending entry is concerned.  The environment outcome says which
of the mutually exclusive continuations after the send happened:

* `sendFail` — `socket.send(&data).await?` returned an error (the `?`
  propagates it immediately);
* `completed inner` — the receive loop removed this call's entry and sent
  `inner` on the oneshot channel before the 5 s timeout (`Ok(Ok(response))`,
  then `Ok(response?)`);
* `recvError` — the oneshot receiver yielded an error, the sender having
  been dropped without sending (`Ok(Err(err))` arm);
* `timedOut` — the 5 s timeout elapsed (`Err(_)` arm).

The trace records the observable effects in program order. -/

inductive UdpOutcome where
  | sendFail : UdpOutcome
  | completed (inner : Except Unit (List Nat)) : UdpOutcome
  | recvError : UdpOutcome
  | timedOut : UdpOutcome
deriving Repr

inductive Event where
  | insertPending (txid : Nat) : Event
  | sendDatagram (data : List Nat) : Event
  | removePending (txid : Nat) : Event
deriving DecidableEq, Repr

inductive UdpResult where
  | ok (response : List Nat) : UdpResult
  | err : UdpResult
deriving DecidableEq, Repr

/-- Embeds `<UdpClient as Client>::resolve_raw` together with the pending
table updates of the concurrent receive loop referring to this call's entry.
Returns the event trace, the chosen transaction ID, the call's result, and
the pending table once the call has returned (`none` models a panic or the
ID-sampling loop diverging).  On `completed` the entry was removed by the
receive loop before it delivered (cf. `receive_task_step`); on `recvError`
and `timedOut` the call itself removes the entry (`let _ = pending.remove`);
on `sendFail` the `?` operator returns without any cleanup. -/
def resolve_raw_run (pending : PendingMap) (handle : Nat) (samples : List Nat)
    (data : List Nat) (outcome : UdpOutcome) :
    Option (List Event × Nat × UdpResult × PendingMap) :=
  match new_pending_request pending handle samples with
  | .outOfSamples => none
  | .assertFail => none
  | .ok txid p1 =>
    match write_txid data txid with
    | none => none
    | some wire =>
      match outcome with
      | .sendFail =>
        some ([.insertPending txid, .sendDatagram wire], txid, .err, p1)
      | .completed inner =>
        let p2 := map_erase p1 txid
        match inner with
        | .ok response =>
          some ([.insertPending txid, .sendDatagram wire, .removePending txid],
            txid, .ok response, p2)
        | .error _ =>
          some ([.insertPending txid, .sendDatagram wire, .removePending txid],
            txid, .err, p2)
      | .recvError =>
        some ([.insertPending txid, .sendDatagram wire, .removePending txid],
          txid, .err, map_erase p1 txid)
      | .timedOut =>
        some ([.insertPending txid, .sendDatagram wire, .removePending txid],
          txid, .err, map_erase p1 txid)

/-! ## HttpsClient::resolve_raw (src/client/https/https_client.rs) -/

structure HttpResponse where
  status : Nat
  body : List Nat
deriving DecidableEq, Repr

/-- What the HTTP POST did: the request itself failed (`send().await?`), or
the upstream produced a response with a status and a body. -/
inductive HttpOutcome where
  | sendErr : HttpOutcome
  | response (r : HttpResponse) : HttpOutcome
deriving DecidableEq, Repr

/-- Embeds `reqwest::StatusCode::is_success`: status in 200..=299. -/
def status_is_success (status : Nat) : Bool :=
  200 ≤ status && status < 300

inductive HttpsResult where
  | ok (response : List Nat) : HttpsResult
  | err : HttpsResult
deriving DecidableEq, Repr

/-- Embeds `<HttpsClient as Client>::resolve_raw`: record the request's
transaction ID (panicking, `none`, on requests shorter than 2 bytes), zero
bytes 0 and 1, POST the zeroed body; fail on a transport error or a
non-success status; on success restore the recorded transaction ID into the
response body (panicking on bodies shorter than 2 bytes) and return it.
The first component of the pair is the body handed to the HTTP transport. -/
def https_resolve_raw (data : List Nat) (outcome : HttpOutcome) :
    Option (List Nat × HttpsResult) :=
  match data with
  | b0 :: b1 :: rest =>
    let txid := b0 * 256 + b1
    let sent := 0 :: 0 :: rest
    match outcome with
    | .sendErr => some (sent, .err)
    | .response r =>
      if status_is_success r.status then
        match write_txid r.body txid with
        | none => none
        | some restored => some (sent, .ok restored)
      else
        some (sent, .err)
  | _ => none

/-! ## Resolver dispatch loop (src/resolver/resolver.rs) -/

/-- The per-request context built by `socket_handler` (the `Request` struct;
the arrival timestamp is omitted as purely diagnostic real time). -/
structure Request where
  id : Nat
  peer : Nat
  data : List Nat
deriving DecidableEq, Repr

/-- Embeds the successful-receive arm of one `socket_handler` iteration:
read the datagram into the 1024-byte buffer, split off the received prefix
and package it with the sequence number and peer address. -/
def socket_handler_step (reqId : Nat) (peer : Nat) (dgram : List Nat) :
    Request :=
  { id := reqId, peer := peer, data := recv_into_buffer 1024 dgram }

/-- Result of the upstream `Client::resolve_raw` call as seen by the
resolver's request handler. -/
inductive UpstreamResult where
  | ok (response : List Nat) : UpstreamResult
  | err : UpstreamResult
deriving DecidableEq, Repr

/-- Embeds `resolver::request_handler` up to the `send_to` call: capture the
request's transaction ID (panicking, outer `none`, on requests shorter than
2 bytes), forward to the upstream client; on upstream error drop the request
(inner `none`, no reply); on success overwrite the response's bytes 0..2 with
the captured ID (panicking on responses shorter than 2 bytes) and send the
result to the recorded peer. -/
def request_handler (req : Request) (upstream : List Nat → UpstreamResult) :
    Option (Option (Nat × List Nat)) :=
  match txid_from_binary_message req.data with
  | none => none
  | some txid =>
    match upstream req.data with
    | .err => some none
    | .ok response =>
      match write_txid response txid with
      | none => none
      | some reply => some (some (req.peer, reply))

/-! ## Helper lemmas about the embedded definitions -/

theorem map_contains_eq_isSome (m : PendingMap) (k : Nat) :
    map_contains m k = (map_lookup m k).isSome := by
  induction m with
  | nil => rfl
  | cons a m ih =>
    by_cases h : a.1 = k
    · simp [map_contains, map_lookup, List.find?_cons, h]
    · have hb : (a.1 == k) = false := by simp [h]
      simpa [map_contains, map_lookup, List.find?_cons, hb] using ih

theorem map_contains_false_lookup (m : PendingMap) (k : Nat)
    (h : map_contains m k = false) : map_lookup m k = none := by
  rw [map_contains_eq_isSome] at h
  exact Option.not_isSome_iff_eq_none.mp (by simp [h])

theorem map_erase_of_not_contains (m : PendingMap) (k : Nat)
    (h : map_contains m k = false) : map_erase m k = m := by
  apply List.filter_eq_self.mpr
  intro p hp
  have hb : (p.1 == k) = false := by
    by_contra hc
    rw [Bool.not_eq_false] at hc
    have hm : map_contains m k = true := by
      simp only [map_contains, List.any_eq_true]
      exact ⟨p, hp, hc⟩
    simp [hm] at h
  simp [bne, hb]

theorem map_contains_erase_self (m : PendingMap) (k : Nat) :
    map_contains (map_erase m k) k = false := by
  rw [Bool.eq_false_iff]
  intro hc
  simp only [map_contains, List.any_eq_true] at hc
  obtain ⟨p, hp, heq⟩ := hc
  rw [map_erase, List.mem_filter] at hp
  obtain ⟨_, hne⟩ := hp
  simp [bne, heq] at hne

theorem map_contains_false_not_mem_keys (m : PendingMap) (k : Nat)
    (h : map_contains m k = false) : k ∉ m.map Prod.fst := by
  intro hmem
  obtain ⟨p, hp, hk⟩ := List.mem_map.mp hmem
  have hm : map_contains m k = true := by
    simp only [map_contains, List.any_eq_true]
    exact ⟨p, hp, by simp [hk]⟩
  simp [hm] at h

theorem txid_from_eq_some (m : List Nat) (t : Nat)
    (h : txid_from_binary_message m = some t) :
    ∃ b0 b1 rest, m = b0 :: b1 :: rest ∧ t = b0 * 256 + b1 := by
  match m with
  | [] => simp [txid_from_binary_message] at h
  | [_] => simp [txid_from_binary_message] at h
  | b0 :: b1 :: rest =>
    refine ⟨b0, b1, rest, rfl, ?_⟩
    simpa [txid_from_binary_message] using h.symm

theorem txid_write_read (data : List Nat) (t : Nat) (out : List Nat)
    (hw : write_txid data t = some out) (ht : t < 65536) :
    txid_from_binary_message out = some t := by
  match data with
  | [] => simp [write_txid] at hw
  | [_] => simp [write_txid] at hw
  | b0 :: b1 :: rest =>
    simp only [write_txid, Option.some.injEq] at hw
    subst hw
    simp only [txid_from_binary_message, Option.some.injEq]
    omega

theorem recv_into_buffer_eq_take (bufSize : Nat) (d : List Nat) :
    recv_into_buffer bufSize d = d.take bufSize := by
  unfold recv_into_buffer
  have hlen : (d.take (min d.length bufSize)).length = min d.length bufSize := by
    simp [List.length_take]
  rw [List.take_left' hlen]
  rcases le_or_lt d.length bufSize with h | h
  · simp [Nat.min_eq_left h, List.take_of_length_le h, List.take_of_length_le le_rfl]
  · simp [Nat.min_eq_right (le_of_lt h)]

theorem new_pending_request_ok (pending : PendingMap) (handle : Nat)
    (samples : List Nat) (txid : Nat) (p1 : PendingMap)
    (h : new_pending_request pending handle samples = .ok txid p1) :
    map_contains pending txid = false ∧ txid < 65536 ∧
      p1 = (txid, handle) :: pending := by
  induction samples with
  | nil => simp [new_pending_request] at h
  | cons s rest ih =>
    simp only [new_pending_request] at h
    by_cases hc : map_contains pending (s % 65536)
    · rw [if_pos hc] at h
      exact ih h
    · rw [if_neg hc] at h
      rw [Bool.not_eq_true] at hc
      have hl := map_contains_false_lookup pending (s % 65536) hc
      simp only [map_insert, hl] at h
      rw [map_erase_of_not_contains pending (s % 65536) hc] at h
      cases h
      exact ⟨hc, Nat.mod_lt _ (by omega), rfl⟩

theorem new_pending_request_no_assert (pending : PendingMap) (handle : Nat)
    (samples : List Nat) :
    new_pending_request pending handle samples ≠ .assertFail := by
  induction samples with
  | nil => simp [new_pending_request]
  | cons s rest ih =>
    simp only [new_pending_request]
    by_cases hc : map_contains pending (s % 65536)
    · rw [if_pos hc]
      exact ih
    · rw [if_neg hc]
      rw [Bool.not_eq_true] at hc
      have hl := map_contains_false_lookup pending (s % 65536) hc
      simp [map_insert, hl]

theorem receive_task_step_deliver (pm : PendingMap) (dgram : List Nat)
    (dok : Bool) (pm2 : PendingMap) (t h : Nat) (payload : List Nat)
    (hstep : receive_task_step pm dgram dok = some (pm2, .deliver t h payload)) :
    txid_from_binary_message payload = some t ∧
      map_lookup pm t = some h ∧ pm2 = map_erase pm t ∧
      payload = recv_into_buffer 1024 dgram := by
  simp only [receive_task_step] at hstep
  cases hx : txid_from_binary_message (recv_into_buffer 1024 dgram) with
  | none => rw [hx] at hstep; cases hstep
  | some txid =>
    rw [hx] at hstep
    cases hl : map_lookup pm txid with
    | none => simp [map_remove, hl] at hstep
    | some sender =>
      simp only [map_remove, hl, Option.some.injEq, Prod.mk.injEq,
        RecvAction.deliver.injEq] at hstep
      obtain ⟨hpm2, htt, hhs, hpl⟩ := hstep
      subst htt
      subst hhs
      subst hpl
      exact ⟨hx, hl, hpm2.symm, rfl⟩

theorem write_txid_eq_some (data : List Nat) (t : Nat) (out : List Nat)
    (h : write_txid data t = some out) :
    out = t / 256 % 256 :: t % 256 :: data.drop 2 ∧ 2 ≤ data.length := by
  match data with
  | [] => simp [write_txid] at h
  | [_] => simp [write_txid] at h
  | b0 :: b1 :: rest =>
    simp only [write_txid, Option.some.injEq] at h
    refine ⟨?_, by simp [List.length_cons]⟩
    rw [← h]
    simp

theorem resolve_raw_run_some_inv (pending : PendingMap) (handle : Nat)
    (samples data : List Nat) (outcome : UdpOutcome) (tr : List Event)
    (txid : Nat) (r : UdpResult) (pf : PendingMap)
    (hrun : resolve_raw_run pending handle samples data outcome =
      some (tr, txid, r, pf)) :
    new_pending_request pending handle samples =
      .ok txid ((txid, handle) :: pending) ∧
    tr.take 2 = [.insertPending txid,
      .sendDatagram (txid / 256 % 256 :: txid % 256 :: data.drop 2)] := by
  simp only [resolve_raw_run] at hrun
  split at hrun
  · exact Option.noConfusion hrun
  · exact Option.noConfusion hrun
  next txid0 p1 hnpr =>
    split at hrun
    · exact Option.noConfusion hrun
    next wire hw =>
      obtain ⟨hwire, -⟩ := write_txid_eq_some data txid0 wire hw
      obtain ⟨-, -, hp1⟩ := new_pending_request_ok pending handle samples
        txid0 p1 hnpr
      subst hp1
      subst hwire
      cases outcome with
      | sendFail =>
        simp only [Option.some.injEq, Prod.mk.injEq] at hrun
        obtain ⟨htr, htx, -⟩ := hrun
        subst htx
        rw [← htr]
        exact ⟨hnpr, rfl⟩
      | completed inner =>
        cases inner with
        | ok resp =>
          simp only [Option.some.injEq, Prod.mk.injEq] at hrun
          obtain ⟨htr, htx, -⟩ := hrun
          subst htx
          rw [← htr]
          exact ⟨hnpr, rfl⟩
        | error e =>
          simp only [Option.some.injEq, Prod.mk.injEq] at hrun
          obtain ⟨htr, htx, -⟩ := hrun
          subst htx
          rw [← htr]
          exact ⟨hnpr, rfl⟩
      | recvError =>
        simp only [Option.some.injEq, Prod.mk.injEq] at hrun
        obtain ⟨htr, htx, -⟩ := hrun
        subst htx
        rw [← htr]
        exact ⟨hnpr, rfl⟩
      | timedOut =>
        simp only [Option.some.injEq, Prod.mk.injEq] at hrun
        obtain ⟨htr, htx, -⟩ := hrun
        subst htx
        rw [← htr]
        exact ⟨hnpr, rfl⟩

theorem resolve_raw_run_completed_ok (pending : PendingMap) (handle : Nat)
    (samples data payload : List Nat) (tr : List Event) (txid : Nat)
    (r : UdpResult) (pf : PendingMap)
    (hrun : resolve_raw_run pending handle samples data
      (.completed (.ok payload)) = some (tr, txid, r, pf)) :
    r = .ok payload ∧
      ∃ p1, new_pending_request pending handle samples = .ok txid p1 ∧
        pf = map_erase p1 txid := by
  simp only [resolve_raw_run] at hrun
  split at hrun
  · exact Option.noConfusion hrun
  · exact Option.noConfusion hrun
  next txid0 p1 hnpr =>
    split at hrun
    · exact Option.noConfusion hrun
    next wire hw =>
      simp only [Option.some.injEq, Prod.mk.injEq] at hrun
      obtain ⟨-, htx, hr, hpf⟩ := hrun
      subst htx
      exact ⟨hr.symm, p1, hnpr, hpf.symm⟩

/-! ## Claims -/

/-- C3: `new_pending_request` only returns a transaction ID that was not
present in the pending table at insertion time (re-sampling on collision),
the post-insert collision assertion never fires, the chosen ID is 16-bit,
and insertion preserves uniqueness of the table's keys. -/
theorem c3_txid_unique (pending : PendingMap) (handle : Nat)
    (samples : List Nat) :
    new_pending_request pending handle samples ≠ .assertFail ∧
    ∀ txid p1, new_pending_request pending handle samples = .ok txid p1 →
      map_contains pending txid = false ∧ txid < 65536 ∧
      p1 = (txid, handle) :: pending ∧ map_contains p1 txid = true ∧
      ((pending.map Prod.fst).Nodup → (p1.map Prod.fst).Nodup) := by
  refine ⟨new_pending_request_no_assert pending handle samples, ?_⟩
  intro txid p1 h
  obtain ⟨hc, hlt, hp1⟩ := new_pending_request_ok pending handle samples txid p1 h
  refine ⟨hc, hlt, hp1, ?_, ?_⟩
  · subst hp1
    simp [map_contains]
  · intro hnd
    subst hp1
    simp only [List.map_cons, List.nodup_cons]
    exact ⟨map_contains_false_not_mem_keys pending txid hc, hnd⟩

/-- C3 witness: a concrete run of `new_pending_request` on the empty table. -/
theorem c3_txid_unique_witness :
    map_contains [] 5 = false ∧ 5 < 65536 ∧
      ([(5, 7)] : PendingMap) = [(5, 7)] ∧ map_contains [(5, 7)] 5 = true ∧
      (([(5, 7)] : PendingMap).map Prod.fst).Nodup := by
  have h := (c3_txid_unique [] 7 [5]).2 5 [(5, 7)] (by decide)
  exact ⟨h.1, h.2.1, h.2.2.1, h.2.2.2.1, h.2.2.2.2 (by simp)⟩

/-- C4: whenever the resolver's `request_handler` sends a reply, the reply
goes to the recorded peer and its first two bytes decode to the transaction
ID of the peer's original request, regardless of what the upstream returned
in the first two bytes of its response. -/
theorem c4_txid_transparency (req : Request)
    (upstream : List Nat → UpstreamResult) (peer : Nat) (reply : List Nat)
    (hbytes : ∀ b ∈ req.data, b < 256)
    (hrun : request_handler req upstream = some (some (peer, reply))) :
    peer = req.peer ∧
      txid_from_binary_message reply = txid_from_binary_message req.data := by
  simp only [request_handler] at hrun
  split at hrun
  next hx => exact Option.noConfusion hrun
  next txid hx =>
    split at hrun
    next hup => simp at hrun
    next response hup =>
      split at hrun
      next hw => exact Option.noConfusion hrun
      next rep hw =>
        simp only [Option.some.injEq, Prod.mk.injEq] at hrun
        obtain ⟨hpeer, hrep⟩ := hrun
        obtain ⟨b0, b1, rest2, hdata, htx⟩ := txid_from_eq_some req.data txid hx
        have hb0 : b0 < 256 := hbytes b0 (by rw [hdata]; simp)
        have hb1 : b1 < 256 := hbytes b1 (by rw [hdata]; simp)
        have ht : txid < 65536 := by omega
        subst hrep
        rw [txid_write_read response txid rep hw ht, hx]
        exact ⟨hpeer.symm, rfl⟩

/-- C4 witness: an upstream that answers with transaction ID zero; the reply
still carries the downstream request's ID 0x0102. -/
theorem c4_txid_transparency_witness :
    42 = (Request.mk 0 42 [1, 2, 3]).peer ∧
      txid_from_binary_message [1, 2, 77] =
        txid_from_binary_message (Request.mk 0 42 [1, 2, 3]).data :=
  c4_txid_transparency (Request.mk 0 42 [1, 2, 3]) (fun _ => .ok [0, 0, 77])
    42 [1, 2, 77]
    (by intro b hb; fin_cases hb <;> norm_num)
    (by decide)

/-- C5: on a request of at least 2 bytes, the HTTPS client POSTs the body
with bytes 0 and 1 zeroed (tail unchanged) and, on a success status, returns
the response body with bytes 0 and 1 overwritten by the request's original
transaction ID and every other byte unchanged. -/
theorem c5_https_zero_and_restore (b0 b1 : Nat) (rest : List Nat)
    (r : HttpResponse) (c0 c1 : Nat) (brest : List Nat)
    (hb0 : b0 < 256) (hb1 : b1 < 256)
    (hstatus : status_is_success r.status = true)
    (hbody : r.body = c0 :: c1 :: brest) :
    https_resolve_raw (b0 :: b1 :: rest) (.response r) =
      some (0 :: 0 :: rest, .ok (b0 :: b1 :: brest)) := by
  simp only [https_resolve_raw, hstatus, if_true, hbody, write_txid]
  have h0 : (b0 * 256 + b1) / 256 % 256 = b0 := by omega
  have h1 : (b0 * 256 + b1) % 256 = b1 := by omega
  rw [h0, h1]

/-- C5 witness: request 0x0102 with payload byte 9; upstream success body
0x0708 with payload byte 3. -/
theorem c5_https_zero_and_restore_witness :
    https_resolve_raw [1, 2, 9] (.response (HttpResponse.mk 200 [7, 8, 3])) =
      some ([0, 0, 9], .ok [1, 2, 3]) :=
  c5_https_zero_and_restore 1 2 [9] (HttpResponse.mk 200 [7, 8, 3]) 7 8 [3]
    (by norm_num) (by norm_num) (by decide) rfl

/-- C6: the HTTPS client returns a payload only when the HTTP status is a
success status; for a non-success status (and for a transport error) it
returns an error and never a payload. -/
theorem c6_https_error_on_non_success (data : List Nat) (r : HttpResponse) :
    (∀ sent resp, https_resolve_raw data (.response r) = some (sent, .ok resp) →
      status_is_success r.status = true) ∧
    (∀ b0 b1 rest, data = b0 :: b1 :: rest →
      status_is_success r.status = false →
      https_resolve_raw data (.response r) = some (0 :: 0 :: rest, .err)) ∧
    (∀ sent resp, https_resolve_raw data .sendErr ≠ some (sent, .ok resp)) := by
  match data with
  | [] =>
    refine ⟨?_, ?_, ?_⟩ <;> simp [https_resolve_raw]
  | [b] =>
    refine ⟨?_, ?_, ?_⟩ <;> simp [https_resolve_raw]
  | b0 :: b1 :: rest =>
    refine ⟨?_, ?_, ?_⟩
    · intro sent resp h
      by_cases hs : status_is_success r.status
      · exact hs
      · simp only [https_resolve_raw, hs, if_false, Bool.false_eq_true] at h
        simp at h
    · intro c0 c1 crest hdata hs
      cases hdata
      simp [https_resolve_raw, hs]
    · intro sent resp h
      simp [https_resolve_raw] at h

/-- C6 witness: an HTTP 500 yields an error, not a payload. -/
theorem c6_https_error_on_non_success_witness :
    https_resolve_raw [1, 2, 9] (.response (HttpResponse.mk 500 [7, 8, 3])) =
      some ([0, 0, 9], .err) :=
  (c6_https_error_on_non_success [1, 2, 9] (HttpResponse.mk 500 [7, 8, 3])).2.1
    1 2 [9] rfl (by decide)

/-- C8: `txid_from_binary_message` is partial: it panics (`none`) exactly on
messages shorter than 2 bytes and totally decodes the big-endian 16-bit
integer at offset 0 otherwise; both the UDP client's receive loop and the
resolver's request handler apply it to raw datagrams with no length check,
so a 0- or 1-byte datagram panics the invoking task. -/
theorem c8_txid_partial_panics (m : List Nat) :
    (m.length < 2 → txid_from_binary_message m = none) ∧
    (∀ b0 b1 rest,
      txid_from_binary_message (b0 :: b1 :: rest) = some (b0 * 256 + b1)) ∧
    (∀ pending deliverOk, m.length < 2 →
      receive_task_step pending m deliverOk = none) ∧
    (∀ pending deliverOk rest, m.length < 2 →
      receive_task_run pending (.recvOk m deliverOk :: rest) = none) ∧
    (∀ reqId peer upstream, m.length < 2 →
      request_handler (socket_handler_step reqId peer m) upstream = none) := by
  have hshort : m.length < 2 → txid_from_binary_message m = none := by
    intro hl
    match m with
    | [] => rfl
    | [_] => rfl
    | _ :: _ :: _ => simp [List.length_cons] at hl; omega
  have hkeep : m.length < 2 → recv_into_buffer 1024 m = m := by
    intro hl
    rw [recv_into_buffer_eq_take]
    exact List.take_of_length_le (by omega)
  have hstep : ∀ pending deliverOk, m.length < 2 →
      receive_task_step pending m deliverOk = none := by
    intro pending dok hl
    simp only [receive_task_step, hkeep hl, hshort hl]
  refine ⟨hshort, fun b0 b1 rest => rfl, hstep, ?_, ?_⟩
  · intro pending dok rest hl
    simp only [receive_task_run, hstep pending dok hl]
  · intro reqId peer upstream hl
    simp only [request_handler, socket_handler_step, hkeep hl, hshort hl]

/-- C8 witness: a 1-byte datagram panics the receive task and the request
handler; a 2-byte message decodes totally. -/
theorem c8_txid_partial_panics_witness :
    txid_from_binary_message [3] = none ∧
      txid_from_binary_message [1, 2] = some 258 ∧
      receive_task_step [] [3] true = none ∧
      receive_task_run [] [.recvOk [3] true] = none ∧
      request_handler (socket_handler_step 0 0 [3]) (fun _ => .err) = none := by
  have h := c8_txid_partial_panics [3]
  exact ⟨h.1 (by norm_num), h.2.1 1 2 [], h.2.2.1 [] true (by norm_num),
    h.2.2.2.1 [] true [] (by norm_num),
    h.2.2.2.2 0 0 (fun _ => .err) (by norm_num)⟩

/-- C10: every inbound datagram, in the resolver's dispatch loop and in the
UDP client's receive loop alike, is read through a fixed 1024-byte buffer:
the processed data is exactly the first 1024 bytes of the datagram, so any
longer datagram is silently truncated. -/
theorem c10_buffer_truncation (dgram : List Nat) :
    recv_into_buffer 1024 dgram = dgram.take 1024 ∧
    (∀ reqId peer, (socket_handler_step reqId peer dgram).data =
      dgram.take 1024) ∧
    (∀ pending dok pm2 t h payload,
      receive_task_step pending dgram dok = some (pm2, .deliver t h payload) →
      payload = dgram.take 1024) ∧
    (1024 < dgram.length →
      dgram.take 1024 ≠ dgram ∧ (dgram.take 1024).length = 1024) := by
  refine ⟨recv_into_buffer_eq_take 1024 dgram, ?_, ?_, ?_⟩
  · intro reqId peer
    simp [socket_handler_step, recv_into_buffer_eq_take]
  · intro pending dok pm2 t h payload hstep
    have hp :=
      (receive_task_step_deliver pending dgram dok pm2 t h payload hstep).2.2.2
    rw [hp, recv_into_buffer_eq_take]
  · intro hl
    have hlen : (dgram.take 1024).length = 1024 := by
      simp only [List.length_take]
      omega
    refine ⟨?_, hlen⟩
    intro heq
    rw [heq] at hlen
    omega

/-- C10 witness: a 1025-byte datagram is truncated to its first 1024 bytes
in the resolver's receive path, and a delivered payload in the UDP client's
receive loop is the truncated datagram. -/
theorem c10_buffer_truncation_witness :
    (socket_handler_step 0 0 (List.replicate 1025 3)).data =
        (List.replicate 1025 3).take 1024 ∧
      (List.replicate 1025 3).take 1024 ≠ List.replicate 1025 3 ∧
      ([0, 5, 9] : List Nat) = ([0, 5, 9] : List Nat).take 1024 := by
  refine ⟨(c10_buffer_truncation (List.replicate 1025 3)).2.1 0 0, ?_, ?_⟩
  · exact ((c10_buffer_truncation (List.replicate 1025 3)).2.2.2
      (by rw [List.length_replicate]; norm_num)).1
  · exact (c10_buffer_truncation [0, 5, 9]).2.2.1 [(5, 7)] true [] 5 7
      [0, 5, 9] (by decide)

/-- C1 counterexample: with an empty pending table, RNG sample 5 and request
bytes [0, 0], a socket send error makes `resolve_raw` return a non-success
result while transaction ID 5 is still present in the pending table: the `?`
on `socket.send` returns before any cleanup, so an entry is left dangling
past its owning call's return. -/
theorem c1_send_error_leak_counterexample :
    resolve_raw_run [] 7 [5] [0, 0] .sendFail =
      some ([.insertPending 5, .sendDatagram [0, 5]], 5, .err, [(5, 7)]) ∧
      map_contains [(5, 7)] 5 = true :=
  ⟨by decide, by decide⟩

/-- C1 (amended): on every non-success path other than a socket send error
(completion-handle error, timeout, or an error delivered through the
completion handle), the pending entry for the chosen transaction ID has been
removed when `resolve_raw` returns, and removal is idempotent (removing an
absent key leaves the table unchanged); on a socket send error the entry
remains in the table. -/
theorem c1_cleanup_on_nonsend_failures (pending : PendingMap) (handle : Nat)
    (samples data : List Nat) (outcome : UdpOutcome) (tr : List Event)
    (txid : Nat) (r : UdpResult) (pf : PendingMap)
    (hout : outcome ≠ .sendFail)
    (hrun : resolve_raw_run pending handle samples data outcome =
      some (tr, txid, r, pf)) :
    map_contains pf txid = false ∧
      ∀ m k, map_contains m k = false → map_erase m k = m := by
  refine ⟨?_, fun m k h => map_erase_of_not_contains m k h⟩
  simp only [resolve_raw_run] at hrun
  split at hrun
  · exact Option.noConfusion hrun
  · exact Option.noConfusion hrun
  next txid0 p1 hnpr =>
    split at hrun
    · exact Option.noConfusion hrun
    next wire hw =>
      cases outcome with
      | sendFail => exact absurd rfl hout
      | completed inner =>
        cases inner with
        | ok resp =>
          simp only [Option.some.injEq, Prod.mk.injEq] at hrun
          obtain ⟨-, htx, -, hpf⟩ := hrun
          subst htx
          rw [← hpf]
          exact map_contains_erase_self p1 txid0
        | error e =>
          simp only [Option.some.injEq, Prod.mk.injEq] at hrun
          obtain ⟨-, htx, -, hpf⟩ := hrun
          subst htx
          rw [← hpf]
          exact map_contains_erase_self p1 txid0
      | recvError =>
        simp only [Option.some.injEq, Prod.mk.injEq] at hrun
        obtain ⟨-, htx, -, hpf⟩ := hrun
        subst htx
        rw [← hpf]
        exact map_contains_erase_self p1 txid0
      | timedOut =>
        simp only [Option.some.injEq, Prod.mk.injEq] at hrun
        obtain ⟨-, htx, -, hpf⟩ := hrun
        subst htx
        rw [← hpf]
        exact map_contains_erase_self p1 txid0

/-- C1 witness: a timed-out call on the empty table leaves no entry behind,
and removing an absent key is a no-op. -/
theorem c1_cleanup_on_nonsend_failures_witness :
    map_contains [] 5 = false ∧ map_erase [(9, 7)] 5 = [(9, 7)] := by
  have h := c1_cleanup_on_nonsend_failures [] 7 [5] [0, 0] .timedOut
    [.insertPending 5, .sendDatagram [0, 5], .removePending 5] 5 .err []
    (fun hc => UdpOutcome.noConfusion hc) (by decide)
  exact ⟨h.1, h.2 [(9, 7)] 5 (by decide)⟩

/-- C2: in every execution of `resolve_raw` that returns, the completion
handle for the chosen transaction ID is inserted into the pending table
strictly before the request datagram is sent on the socket: the first trace
event is the insertion, the second the send of the rewritten datagram, and
after the insertion the table contains the chosen ID. -/
theorem c2_register_before_send (pending : PendingMap) (handle : Nat)
    (samples data : List Nat) (outcome : UdpOutcome) (tr : List Event)
    (txid : Nat) (r : UdpResult) (pf : PendingMap)
    (hrun : resolve_raw_run pending handle samples data outcome =
      some (tr, txid, r, pf)) :
    new_pending_request pending handle samples =
      .ok txid ((txid, handle) :: pending) ∧
    map_contains ((txid, handle) :: pending) txid = true ∧
    tr.take 2 = [.insertPending txid,
      .sendDatagram (txid / 256 % 256 :: txid % 256 :: data.drop 2)] := by
  obtain ⟨hnpr, htr⟩ := resolve_raw_run_some_inv pending handle samples data
    outcome tr txid r pf hrun
  exact ⟨hnpr, by simp [map_contains], htr⟩

/-- C2 witness: a concrete timed-out call whose trace begins with the
insertion of ID 5 followed by the send. -/
theorem c2_register_before_send_witness :
    new_pending_request [] 7 [5] = .ok 5 [(5, 7)] ∧
      map_contains [(5, 7)] 5 = true ∧
      ([.insertPending 5, .sendDatagram [0, 5],
        .removePending 5] : List Event).take 2 =
        [.insertPending 5, .sendDatagram [0, 5]] :=
  c2_register_before_send [] 7 [5] [0, 0] .timedOut
    [.insertPending 5, .sendDatagram [0, 5], .removePending 5] 5 .err []
    (by decide)

/-- C7: a datagram whose transaction ID is absent from the pending table is
discarded silently, the table and every other entry are unchanged and the
loop goes on serving subsequent events without crashing; when the ID is
present the entry is removed and the payload delivered to its completion
handle, and the loop's behaviour does not depend on whether delivery
succeeds. -/
theorem c7_unsolicited_tolerance (pending : PendingMap) (dgram : List Nat)
    (deliverOk : Bool) (txid : Nat) (rest : List SockEvent)
    (hext : txid_from_binary_message (recv_into_buffer 1024 dgram) =
      some txid) :
    (map_contains pending txid = false →
      receive_task_step pending dgram deliverOk = some (pending, .discard) ∧
      receive_task_run pending (.recvOk dgram deliverOk :: rest) =
        Option.map (fun pr => (pr.1, RecvAction.discard :: pr.2))
          (receive_task_run pending rest)) ∧
    (∀ h, map_lookup pending txid = some h →
      receive_task_step pending dgram deliverOk =
        some (map_erase pending txid,
          .deliver txid h (recv_into_buffer 1024 dgram))) ∧
    map_contains pending txid = (map_lookup pending txid).isSome ∧
    receive_task_step pending dgram true =
      receive_task_step pending dgram false := by
  refine ⟨?_, ?_, map_contains_eq_isSome pending txid, rfl⟩
  · intro hc
    have hl := map_contains_false_lookup pending txid hc
    have hstep : receive_task_step pending dgram deliverOk =
        some (pending, .discard) := by
      simp only [receive_task_step, hext, map_remove, hl]
    refine ⟨hstep, ?_⟩
    simp only [receive_task_run, hstep]
    cases hr : receive_task_run pending rest with
    | none => rfl
    | some pr =>
      obtain ⟨pf, acts⟩ := pr
      rfl
  · intro h hl
    simp only [receive_task_step, hext, map_remove, hl]

/-- C7 witness: with pending table {5}, an arriving datagram with ID 9 is
discarded with the table unchanged while the loop continues, and a datagram
with ID 5 is delivered to handle 7 with the entry removed. -/
theorem c7_unsolicited_tolerance_witness :
    (receive_task_step [(5, 7)] [0, 9] true = some ([(5, 7)], .discard) ∧
      receive_task_run [(5, 7)] [.recvOk [0, 9] true] =
        Option.map (fun pr => (pr.1, RecvAction.discard :: pr.2))
          (receive_task_run [(5, 7)] [])) ∧
      receive_task_step [(5, 7)] [0, 5] true =
        some (map_erase [(5, 7)] 5,
          .deliver 5 7 (recv_into_buffer 1024 [0, 5])) := by
  refine ⟨(c7_unsolicited_tolerance [(5, 7)] [0, 9] true 9 []
    (by decide)).1 (by decide), ?_⟩
  exact (c7_unsolicited_tolerance [(5, 7)] [0, 5] true 5 []
    (by decide)).2.1 7 (by decide)

/-- C9: on success, `resolve_raw` of the UDP client returns the delivered
upstream response bytes exactly as received; since the receive loop only
delivers a payload whose first two bytes decode to the entry's transaction
ID, the returned payload carries the randomly chosen wire transaction ID,
not the transaction ID the caller supplied in its request. -/
theorem c9_udp_no_restore (pending pm : PendingMap) (handle h2 : Nat)
    (samples data dgram payload : List Nat) (deliverOk : Bool)
    (tr : List Event) (txid : Nat) (res : List Nat) (pf pm2 : PendingMap)
    (hrun : resolve_raw_run pending handle samples data
      (.completed (.ok payload)) = some (tr, txid, .ok res, pf))
    (hstep : receive_task_step pm dgram deliverOk =
      some (pm2, .deliver txid h2 payload)) :
    res = payload ∧
      txid_from_binary_message res = some txid ∧
      ∀ t0, txid_from_binary_message data = some t0 → t0 ≠ txid →
        txid_from_binary_message res ≠ some t0 := by
  obtain ⟨hr, -⟩ := resolve_raw_run_completed_ok pending handle samples data
    payload tr txid (.ok res) pf hrun
  have hres : res = payload := by injection hr
  obtain ⟨hptx, -, -, -⟩ := receive_task_step_deliver pm dgram deliverOk pm2
    txid h2 payload hstep
  subst hres
  refine ⟨rfl, hptx, ?_⟩
  intro t0 hdata hne hcontra
  rw [hptx] at hcontra
  exact hne (Option.some.inj hcontra).symm

/-- C9 witness: the caller's request carries ID 0x0102, the wire ID is 5,
and the returned payload still carries ID 5. -/
theorem c9_udp_no_restore_witness :
    ([0, 5, 9] : List Nat) = [0, 5, 9] ∧
      txid_from_binary_message [0, 5, 9] = some 5 ∧
      txid_from_binary_message [0, 5, 9] ≠ some 258 := by
  have h := c9_udp_no_restore [] [(5, 7)] 7 7 [5] [1, 2] [0, 5, 9] [0, 5, 9]
    true [.insertPending 5, .sendDatagram [0, 5], .removePending 5] 5
    [0, 5, 9] [] [] (by decide) (by decide)
  exact ⟨h.1, h.2.1, h.2.2 258 (by decide) (by decide)⟩

end Aufloes
